import Mathlib

/-!
Shallow embedding of an MPSSE command encoder (src/command.rs) and its fluent
builder (src/builder.rs).

Modelling conventions:
- machine integers (u8, u16, usize) are Nat, with explicit wrapping where the
  source wraps (the u16 little-endian serialization masks each byte);
- overflowing subtraction on a length (a Rust panic) makes encoding return
  none, so Command.encode is an Option;
- the f64 frequency argument is modelled by an exact rational; the rational
  computation agrees with the f64 one on every input whose intermediate values
  are exactly representable in f64, which covers all concrete frequencies used
  below; the f64-to-u16 conversion saturates, as the as-cast does in Rust.
-/

namespace Mpsse

/-- Clock edge selector (command.rs, enum ClockDirection). -/
inductive ClockDirection
  | Rising
  | Falling
  deriving DecidableEq, Repr

/-- Bit order selector (command.rs, enum BitDirection). -/
inductive BitDirection
  | LsbFirst
  | MsbFirst
  deriving DecidableEq, Repr

/-- Full option set of a data shift command (command.rs, struct FullDataShiftOptions). -/
structure FullDataShiftOptions where
  read_clock_direction : ClockDirection
  write_clock_direction : ClockDirection
  bit_direction : BitDirection
  write_tdi : Bool
  read_tdo : Bool
  write_tms : Bool
  deriving DecidableEq, Repr

/-- Default full options (command.rs, impl Default for FullDataShiftOptions). -/
def FullDataShiftOptions.default : FullDataShiftOptions :=
  { read_clock_direction := ClockDirection.Rising
    write_clock_direction := ClockDirection.Rising
    bit_direction := BitDirection.MsbFirst
    write_tdi := false
    read_tdo := false
    write_tms := false }

/-- Control byte of a shift command (command.rs, impl Into u8 for FullDataShiftOptions). -/
def FullDataShiftOptions.toByte (o : FullDataShiftOptions) : Nat :=
  (match o.write_clock_direction with
    | ClockDirection.Rising => 0x00
    | ClockDirection.Falling => 0x01) |||
  (match o.read_clock_direction with
    | ClockDirection.Rising => 0x00
    | ClockDirection.Falling => 0x04) |||
  (match o.bit_direction with
    | BitDirection.MsbFirst => 0x00
    | BitDirection.LsbFirst => 0x08) |||
  (match o.write_tdi with
    | false => 0x00
    | true => 0x10) |||
  (match o.read_tdo with
    | false => 0x00
    | true => 0x20) |||
  (match o.write_tms with
    | false => 0x00
    | true => 0x40)

/-- Caller-facing shift options (command.rs, struct DataShiftOptions). -/
structure DataShiftOptions where
  clock_direction : ClockDirection
  bit_direction : BitDirection
  deriving DecidableEq, Repr

/-- Widening of caller options (command.rs, impl Into FullDataShiftOptions for
DataShiftOptions): the caller clock direction lands in the read edge field here,
but every encoder arm below builds its own FullDataShiftOptions instead. -/
def DataShiftOptions.toFull (o : DataShiftOptions) : FullDataShiftOptions :=
  { FullDataShiftOptions.default with
      read_clock_direction := o.clock_direction
      bit_direction := o.bit_direction }

/-- Pin group selector (command.rs, enum PinRange). -/
inductive PinRange
  | High
  | Low
  deriving DecidableEq, Repr

/-- Logical pin level (command.rs, enum PinValue). -/
inductive PinValue
  | High
  | Low
  deriving DecidableEq, Repr, Fintype

/-- Pin direction (command.rs, enum PinDirection). -/
inductive PinDirection
  | Input
  | Output
  deriving DecidableEq, Repr, Fintype

/-- Per-pin levels for one 8-pin group (command.rs, struct PinValueArray). -/
abbrev PinValueArray := Fin 8 → PinValue

/-- Per-pin directions for one 8-pin group (command.rs, struct PinDirectionArray). -/
abbrev PinDirectionArray := Fin 8 → PinDirection

/-- u8 bit reversal, bit i moves to bit 7-i (u8 reverse_bits, used by the
From u8 conversions in command.rs). -/
def reverseBits8 (v : Nat) : Nat :=
  (List.range 8).foldl (fun acc i => acc ||| (if v.testBit i then 1 <<< (7 - i) else 0)) 0

/-- Pack pin values into a byte (command.rs, impl Into u8 for PinValueArray). -/
def PinValueArray.toByte (a : PinValueArray) : Nat :=
  ((List.finRange 8).map (fun i =>
    match a i with
    | PinValue.High => 1 <<< (i : Nat)
    | PinValue.Low => 0 <<< (i : Nat))).foldl (fun acc val => acc ||| val) 0

/-- Unpack a byte into pin values (command.rs, impl From u8 for PinValueArray). -/
def PinValueArray.fromByte (value : Nat) : PinValueArray := fun i =>
  if ((reverseBits8 (value % 256) <<< (i : Nat)) % 256) &&& 0x80 = 0x80 then PinValue.High
  else PinValue.Low

/-- Pack pin directions into a byte (command.rs, impl Into u8 for PinDirectionArray). -/
def PinDirectionArray.toByte (a : PinDirectionArray) : Nat :=
  ((List.finRange 8).map (fun i =>
    match a i with
    | PinDirection.Input => 0 <<< (i : Nat)
    | PinDirection.Output => 1 <<< (i : Nat))).foldl (fun acc val => acc ||| val) 0

/-- Unpack a byte into pin directions (command.rs, impl From u8 for PinDirectionArray). -/
def PinDirectionArray.fromByte (value : Nat) : PinDirectionArray := fun i =>
  if ((reverseBits8 (value % 256) <<< (i : Nat)) % 256) &&& 0x80 = 0x80 then PinDirection.Output
  else PinDirection.Input

/-- The command variants (command.rs, enum Command). -/
inductive Command
  | ReadDataShiftBits (options : DataShiftOptions) (length : Nat)
  | ReadDataShiftBytes (options : DataShiftOptions) (length : Nat)
  | WriteDataShiftBits (options : DataShiftOptions) (bits : Nat) (length : Nat)
  | WriteDataShiftBytes (options : DataShiftOptions) (bytes : List Nat)
  | SetBits (range : PinRange) (value : PinValueArray) (direction : PinDirectionArray)
  | ReadBits (range : PinRange)
  | SetLoopback (enable : Bool)
  | SetClockDivisor (divisor : Nat)
  | WaitForIo (value : PinValue)

/-- Response byte count of one command (command.rs, Command::expected_response_length). -/
def Command.expected_response_length : Command → Nat
  | Command.ReadDataShiftBits _ _ => 1
  | Command.WriteDataShiftBits _ _ _ => 0
  | Command.WriteDataShiftBytes _ _ => 0
  | Command.ReadDataShiftBytes _ length => length
  | Command.SetBits _ _ _ => 0
  | Command.ReadBits _ => 1
  | Command.SetLoopback _ => 0
  | Command.SetClockDivisor _ => 0
  | Command.WaitForIo _ => 1

/-- Little-endian serialization of a u16 (u16 to_le_bytes); each byte is masked
so the function also realizes the as-u16 wrap applied to a usize length. -/
def toLeBytes16 (n : Nat) : List Nat :=
  [n % 256, n / 256 % 256]

/-- Control byte of a write shift (command.rs: the FullDataShiftOptions built in
the WriteDataShiftBits and WriteDataShiftBytes arms of Into Vec u8, with
write_tdi set and the caller clock direction in the write edge field). -/
def writeShiftOpcode (options : DataShiftOptions) : Nat :=
  FullDataShiftOptions.toByte
    { FullDataShiftOptions.default with
        write_clock_direction := options.clock_direction
        bit_direction := options.bit_direction
        write_tdi := true }

/-- Control byte of a read shift (command.rs: the FullDataShiftOptions built in
the ReadDataShiftBits and ReadDataShiftBytes arms of Into Vec u8, with
read_tdo set and the caller clock direction in the write edge field). -/
def readShiftOpcode (options : DataShiftOptions) : Nat :=
  FullDataShiftOptions.toByte
    { FullDataShiftOptions.default with
        write_clock_direction := options.clock_direction
        bit_direction := options.bit_direction
        read_tdo := true }

/-- Byte encoding of one command (command.rs, impl Into Vec u8 for Command).
The length-minus-one subtractions panic in Rust when the length is zero (or the
byte vector is empty); those cases return none here. -/
def Command.encode : Command → Option (List Nat)
  | Command.WriteDataShiftBits options bits length =>
      if length = 0 then none
      else some [writeShiftOpcode options ||| 0x02, length - 1, bits]
  | Command.ReadDataShiftBits options length =>
      if length = 0 then none
      else some [readShiftOpcode options ||| 0x02, length - 1]
  | Command.WriteDataShiftBytes options bytes =>
      if bytes.isEmpty then none
      else some (writeShiftOpcode options :: toLeBytes16 (bytes.length - 1) ++ bytes)
  | Command.ReadDataShiftBytes options length =>
      if length = 0 then none
      else some (readShiftOpcode options :: toLeBytes16 (length - 1))
  | Command.SetBits range value direction =>
      some [(match range with | PinRange.Low => 0x80 | PinRange.High => 0x82),
            value.toByte, direction.toByte]
  | Command.ReadBits range =>
      some [(match range with | PinRange.Low => 0x81 | PinRange.High => 0x83)]
  | Command.SetLoopback enable =>
      some [(match enable with | true => 0x84 | false => 0x85)]
  | Command.SetClockDivisor divisor =>
      some (0x86 :: toLeBytes16 divisor)
  | Command.WaitForIo value =>
      some [(match value with | PinValue.High => 0x88 | PinValue.Low => 0x89)]

/-- Ordered command sequence (command.rs, struct CommandList). -/
structure CommandList where
  commands : List Command

/-- Flatten a command list to bytes, in order (command.rs, impl IntoIterator for
CommandList); a panicking member encoding propagates as none. -/
def CommandList.encode (l : CommandList) : Option (List Nat) :=
  l.commands.foldl
    (fun acc command => do
      let r ← acc
      let bs ← Command.encode command
      pure (r ++ bs))
    (some [])

/-- Response byte count of a command list (command.rs, CommandList::expected_response_length). -/
def CommandList.expected_response_length (l : CommandList) : Nat :=
  (l.commands.map Command.expected_response_length).foldl (fun acc cur => acc + cur) 0

/-- The fluent accumulator (builder.rs, struct Builder). -/
structure Builder where
  commands : List Command

/-- Fresh empty builder (builder.rs, Builder::new). -/
def Builder.new : Builder := ⟨[]⟩

/-- Flatten the accumulated commands to bytes (builder.rs, Builder::build). -/
def Builder.build (b : Builder) : Option (List Nat) :=
  CommandList.encode ⟨b.commands⟩

/-- In-progress byte-read command (builder.rs, struct ReadBuilder). -/
structure ReadBuilder where
  parent : Builder
  length : Nat
  clock_direction : ClockDirection
  bit_direction : BitDirection

/-- In-progress byte-write command (builder.rs, struct WriteBuilder). -/
structure WriteBuilder where
  parent : Builder
  data : List Nat
  clock_direction : ClockDirection
  bit_direction : BitDirection

/-- In-progress pin-set command (builder.rs, struct SetPinsBuilder). -/
structure SetPinsBuilder where
  parent : Builder
  range : PinRange
  direction : PinDirectionArray
  value : PinValueArray

/-- In-progress clock-frequency command (builder.rs, struct SetFrequencyBuilder);
the f64 frequency is modelled as an exact rational. -/
structure SetFrequencyBuilder where
  parent : Builder
  frequency : ℚ

/-- In-progress wait-for-io command (builder.rs, struct WaitForIoBuilder). -/
structure WaitForIoBuilder where
  parent : Builder
  value : PinValue

/-- In-progress pin-read command (builder.rs, struct ReadPinsBuilder). -/
structure ReadPinsBuilder where
  parent : Builder
  range : PinRange

/-- Start a byte-write command, defaults Rising and MsbFirst (builder.rs, Builder::write_data). -/
def Builder.write_data (b : Builder) (data : List Nat) : WriteBuilder :=
  ⟨b, data, ClockDirection.Rising, BitDirection.MsbFirst⟩

/-- Start a byte-read command, defaults Rising and MsbFirst (builder.rs, Builder::read_data). -/
def Builder.read_data (b : Builder) (length : Nat) : ReadBuilder :=
  ⟨b, length, ClockDirection.Rising, BitDirection.MsbFirst⟩

/-- Start a pin-set command (builder.rs, Builder::set_pins; the generic Into
arguments are taken here directly as the converted arrays). -/
def Builder.set_pins (b : Builder) (range : PinRange)
    (direction : PinDirectionArray) (value : PinValueArray) : SetPinsBuilder :=
  ⟨b, range, direction, value⟩

/-- Start a pin-read command (builder.rs, Builder::read_pins). -/
def Builder.read_pins (b : Builder) (range : PinRange) : ReadPinsBuilder :=
  ⟨b, range⟩

/-- Start a clock-frequency command (builder.rs, Builder::set_frequency). -/
def Builder.set_frequency (b : Builder) (frequency : ℚ) : SetFrequencyBuilder :=
  ⟨b, frequency⟩

/-- Direct divisor entry (builder.rs, Builder::set_divisor): the source returns
the never type and unconditionally panics via the todo macro, so no builder and
no command can ever come out of it; the panic is modelled as none. -/
def Builder.set_divisor (_b : Builder) (_divisor : Nat) : Option Builder :=
  none

/-- Start a wait-for-io command (builder.rs, Builder::wait_for_io). -/
def Builder.wait_for_io (b : Builder) (value : PinValue) : WaitForIoBuilder :=
  ⟨b, value⟩

/-- Override the clock edge of a byte read (builder.rs, ReadBuilder::with_clock_direction). -/
def ReadBuilder.with_clock_direction (sb : ReadBuilder) (direction : ClockDirection) : ReadBuilder :=
  { sb with clock_direction := direction }

/-- Override the bit order of a byte read (builder.rs, ReadBuilder::with_bit_direction). -/
def ReadBuilder.with_bit_direction (sb : ReadBuilder) (direction : BitDirection) : ReadBuilder :=
  { sb with bit_direction := direction }

/-- Append the finished byte-read command (builder.rs, ReadBuilder::commit). -/
def ReadBuilder.commit (sb : ReadBuilder) : Builder :=
  ⟨sb.parent.commands ++
    [Command.ReadDataShiftBytes ⟨sb.clock_direction, sb.bit_direction⟩ sb.length]⟩

/-- Chaining finalizer (builder.rs, the then method from builder_funcs). -/
def ReadBuilder.andThen (sb : ReadBuilder) : Builder :=
  sb.commit

/-- Combined commit-and-flatten shortcut (builder.rs, the build method from builder_funcs). -/
def ReadBuilder.build (sb : ReadBuilder) : Option (List Nat) :=
  sb.commit.build

/-- Override the clock edge of a byte write (builder.rs, WriteBuilder::with_clock_direction). -/
def WriteBuilder.with_clock_direction (sb : WriteBuilder) (direction : ClockDirection) : WriteBuilder :=
  { sb with clock_direction := direction }

/-- Override the bit order of a byte write (builder.rs, WriteBuilder::with_bit_direction). -/
def WriteBuilder.with_bit_direction (sb : WriteBuilder) (direction : BitDirection) : WriteBuilder :=
  { sb with bit_direction := direction }

/-- Append the finished byte-write command (builder.rs, WriteBuilder::commit). -/
def WriteBuilder.commit (sb : WriteBuilder) : Builder :=
  ⟨sb.parent.commands ++
    [Command.WriteDataShiftBytes ⟨sb.clock_direction, sb.bit_direction⟩ sb.data]⟩

/-- Chaining finalizer (builder.rs, the then method from builder_funcs). -/
def WriteBuilder.andThen (sb : WriteBuilder) : Builder :=
  sb.commit

/-- Combined commit-and-flatten shortcut (builder.rs, the build method from builder_funcs). -/
def WriteBuilder.build (sb : WriteBuilder) : Option (List Nat) :=
  sb.commit.build

/-- Append the finished pin-set command (builder.rs, SetPinsBuilder::commit);
note the command stores value before direction. -/
def SetPinsBuilder.commit (sb : SetPinsBuilder) : Builder :=
  ⟨sb.parent.commands ++ [Command.SetBits sb.range sb.value sb.direction]⟩

/-- Chaining finalizer (builder.rs, the then method from builder_funcs). -/
def SetPinsBuilder.andThen (sb : SetPinsBuilder) : Builder :=
  sb.commit

/-- Combined commit-and-flatten shortcut (builder.rs, the build method from builder_funcs). -/
def SetPinsBuilder.build (sb : SetPinsBuilder) : Option (List Nat) :=
  sb.commit.build

/-- Saturating conversion of the floored f64 divisor to u16: the Rust as-cast
from a float to an integer clamps to the target range. -/
def satU16 (x : ℤ) : Nat :=
  if x < 0 then 0 else if 65535 < x then 65535 else x.toNat

/-- Divisor computed from a target frequency (builder.rs,
SetFrequencyBuilder::commit): floor of 6000000 / frequency - 0.5, converted to
u16 by the saturating float cast. -/
def frequencyDivisor (frequency : ℚ) : Nat :=
  satU16 (Int.floor ((6000000 : ℚ) / frequency - 1 / 2))

/-- Append the finished clock-divisor command (builder.rs, SetFrequencyBuilder::commit). -/
def SetFrequencyBuilder.commit (sb : SetFrequencyBuilder) : Builder :=
  ⟨sb.parent.commands ++ [Command.SetClockDivisor (frequencyDivisor sb.frequency)]⟩

/-- Chaining finalizer (builder.rs, the then method from builder_funcs). -/
def SetFrequencyBuilder.andThen (sb : SetFrequencyBuilder) : Builder :=
  sb.commit

/-- Combined commit-and-flatten shortcut (builder.rs, the build method from builder_funcs). -/
def SetFrequencyBuilder.build (sb : SetFrequencyBuilder) : Option (List Nat) :=
  sb.commit.build

/-- Append the finished wait-for-io command (builder.rs, WaitForIoBuilder::commit). -/
def WaitForIoBuilder.commit (sb : WaitForIoBuilder) : Builder :=
  ⟨sb.parent.commands ++ [Command.WaitForIo sb.value]⟩

/-- Chaining finalizer (builder.rs, the then method from builder_funcs). -/
def WaitForIoBuilder.andThen (sb : WaitForIoBuilder) : Builder :=
  sb.commit

/-- Combined commit-and-flatten shortcut (builder.rs, the build method from builder_funcs). -/
def WaitForIoBuilder.build (sb : WaitForIoBuilder) : Option (List Nat) :=
  sb.commit.build

/-- Append the finished pin-read command (builder.rs, ReadPinsBuilder::commit). -/
def ReadPinsBuilder.commit (sb : ReadPinsBuilder) : Builder :=
  ⟨sb.parent.commands ++ [Command.ReadBits sb.range]⟩

/-- Chaining finalizer (builder.rs, the then method from builder_funcs). -/
def ReadPinsBuilder.andThen (sb : ReadPinsBuilder) : Builder :=
  sb.commit

/-- Combined commit-and-flatten shortcut (builder.rs, the build method from builder_funcs). -/
def ReadPinsBuilder.build (sb : ReadPinsBuilder) : Option (List Nat) :=
  sb.commit.build

set_option maxRecDepth 8000

/-- Claim C1 (counterexample): with the low range, direction mask 0b11001100 and
value 0b00110100, the builder emits the value byte before the direction byte,
producing [0x80, 0x34, 0xCC] and not the claimed [0x80, 0xCC, 0x34]. -/
theorem c1_counterexample :
    (Builder.new.set_pins PinRange.Low (PinDirectionArray.fromByte 0b11001100)
        (PinValueArray.fromByte 0b00110100)).build = some [0x80, 0x34, 0xCC] ∧
    (Builder.new.set_pins PinRange.Low (PinDirectionArray.fromByte 0b11001100)
        (PinValueArray.fromByte 0b00110100)).build ≠ some [0x80, 0xCC, 0x34] := by
  exact ⟨by decide, by decide⟩

/-- Claim C1 (amended): building a set-pins command with the low pin range,
direction mask 0b00110100 and value 0b11001100 produces exactly the bytes
[0x80, 0xCC, 0x34]. -/
theorem c1_set_pins_low_bytes :
    (Builder.new.set_pins PinRange.Low (PinDirectionArray.fromByte 0b00110100)
        (PinValueArray.fromByte 0b11001100)).build = some [0x80, 0xCC, 0x34] := by
  decide

/-- Claim C2: a WriteDataShiftBytes command encodes as the write-enable control
byte, the 16-bit little-endian byte-count minus one, then the payload; a
ReadDataShiftBytes command encodes as the read-enable control byte followed by
the 16-bit little-endian length minus one; and the two concrete scenarios
(write [0x10, 0x01, 0x20, 0x01] and read 15 bytes, rising clock, MSB-first)
produce the documented byte sequences. -/
theorem c2_shift_bytes_encoding :
    (∀ (o : DataShiftOptions) (bytes : List Nat), bytes ≠ [] →
      Command.encode (Command.WriteDataShiftBytes o bytes) =
        some (writeShiftOpcode o :: toLeBytes16 (bytes.length - 1) ++ bytes) ∧
      (writeShiftOpcode o).testBit 4 = true) ∧
    (∀ (o : DataShiftOptions) (len : Nat), 1 ≤ len →
      Command.encode (Command.ReadDataShiftBytes o len) =
        some (readShiftOpcode o :: toLeBytes16 (len - 1)) ∧
      (readShiftOpcode o).testBit 5 = true) ∧
    (((Builder.new.write_data [0x10, 0x01, 0x20, 0x01]).with_clock_direction
        ClockDirection.Rising).with_bit_direction BitDirection.MsbFirst).build =
      some [0x10, 0x03, 0x00, 0x10, 0x01, 0x20, 0x01] ∧
    (((Builder.new.read_data 15).with_clock_direction
        ClockDirection.Rising).with_bit_direction BitDirection.MsbFirst).build =
      some [0x20, 0x0E, 0x00] := by
  refine ⟨?_, ?_, by decide, by decide⟩
  · intro o bytes h
    refine ⟨?_, ?_⟩
    · cases bytes with
      | nil => exact absurd rfl h
      | cons x xs => rfl
    · obtain ⟨cd, bd⟩ := o
      cases cd <;> cases bd <;> decide
  · intro o len h
    refine ⟨?_, ?_⟩
    · cases len with
      | zero => omega
      | succ k => rfl
    · obtain ⟨cd, bd⟩ := o
      cases cd <;> cases bd <;> decide

/-- Witness for C2: the universal parts applied to the two scenario inputs. -/
theorem c2_shift_bytes_encoding_witness :
    Command.encode (Command.WriteDataShiftBytes
        ⟨ClockDirection.Rising, BitDirection.MsbFirst⟩ [0x10, 0x01, 0x20, 0x01]) =
      some (writeShiftOpcode ⟨ClockDirection.Rising, BitDirection.MsbFirst⟩ ::
        toLeBytes16 ([0x10, 0x01, 0x20, 0x01].length - 1) ++ [0x10, 0x01, 0x20, 0x01]) ∧
    Command.encode (Command.ReadDataShiftBytes
        ⟨ClockDirection.Rising, BitDirection.MsbFirst⟩ 15) =
      some (readShiftOpcode ⟨ClockDirection.Rising, BitDirection.MsbFirst⟩ ::
        toLeBytes16 (15 - 1)) :=
  ⟨(c2_shift_bytes_encoding.1 _ [0x10, 0x01, 0x20, 0x01] (by decide)).1,
   (c2_shift_bytes_encoding.2.1 _ 15 (by decide)).1⟩

/-- Claim C3: byte-to-array and array-to-byte conversions are mutual inverses
for pin values and pin directions, bit i of the byte corresponds to element i
of the array (pin 0 least significant), High and Output map to bit value 1. -/
theorem c3_pin_array_codec_roundtrip :
    (∀ b : Fin 256, PinValueArray.toByte (PinValueArray.fromByte b) = b) ∧
    (∀ a : PinValueArray, PinValueArray.fromByte (PinValueArray.toByte a) = a) ∧
    (∀ b : Fin 256, PinDirectionArray.toByte (PinDirectionArray.fromByte b) = b) ∧
    (∀ a : PinDirectionArray, PinDirectionArray.fromByte (PinDirectionArray.toByte a) = a) ∧
    (∀ (b : Fin 256) (i : Fin 8),
      (PinValueArray.fromByte b) i =
        if (b : Nat).testBit i then PinValue.High else PinValue.Low) ∧
    (∀ (a : PinValueArray) (i : Fin 8),
      ((PinValueArray.toByte a).testBit i = true ↔ a i = PinValue.High)) ∧
    (∀ (b : Fin 256) (i : Fin 8),
      (PinDirectionArray.fromByte b) i =
        if (b : Nat).testBit i then PinDirection.Output else PinDirection.Input) ∧
    (∀ (a : PinDirectionArray) (i : Fin 8),
      ((PinDirectionArray.toByte a).testBit i = true ↔ a i = PinDirection.Output)) :=
  ⟨by decide, by decide, by decide, by decide, by decide, by decide, by decide, by decide⟩

/-- Claim C4: in every shift command, including the pure reads, the caller clock
direction lands in bit 0 of the control byte (the write clock edge) and bit 2
(the read clock edge) stays 0; a falling-edge MSB-first byte read has opcode
0x21, not 0x24. -/
theorem c4_read_shift_write_clock_edge :
    (∀ (o : DataShiftOptions) (len : Nat), 1 ≤ len →
      Command.encode (Command.ReadDataShiftBytes o len) =
        some (readShiftOpcode o :: toLeBytes16 (len - 1)) ∧
      ((readShiftOpcode o).testBit 0 = true ↔ o.clock_direction = ClockDirection.Falling) ∧
      (readShiftOpcode o).testBit 2 = false) ∧
    (∀ (o : DataShiftOptions) (len : Nat), 1 ≤ len →
      Command.encode (Command.ReadDataShiftBits o len) =
        some [readShiftOpcode o ||| 0x02, len - 1] ∧
      ((readShiftOpcode o ||| 0x02).testBit 0 = true ↔
        o.clock_direction = ClockDirection.Falling) ∧
      (readShiftOpcode o ||| 0x02).testBit 2 = false) ∧
    (∀ o : DataShiftOptions,
      ((writeShiftOpcode o).testBit 0 = true ↔ o.clock_direction = ClockDirection.Falling) ∧
      (writeShiftOpcode o).testBit 2 = false ∧
      ((writeShiftOpcode o ||| 0x02).testBit 0 = true ↔
        o.clock_direction = ClockDirection.Falling) ∧
      (writeShiftOpcode o ||| 0x02).testBit 2 = false) ∧
    Command.encode (Command.ReadDataShiftBytes
        ⟨ClockDirection.Falling, BitDirection.MsbFirst⟩ 1) = some [0x21, 0x00, 0x00] ∧
    (0x21 : Nat) ≠ 0x24 := by
  refine ⟨?_, ?_, ?_, by decide, by decide⟩
  · intro o len h
    refine ⟨?_, ?_⟩
    · cases len with
      | zero => omega
      | succ k => rfl
    · obtain ⟨cd, bd⟩ := o
      cases cd <;> cases bd <;> decide
  · intro o len h
    refine ⟨?_, ?_⟩
    · cases len with
      | zero => omega
      | succ k => rfl
    · obtain ⟨cd, bd⟩ := o
      cases cd <;> cases bd <;> decide
  · intro o
    obtain ⟨cd, bd⟩ := o
    cases cd <;> cases bd <;> decide

/-- Witness for C4: the universal parts applied at length 1 with falling clock. -/
theorem c4_read_shift_write_clock_edge_witness :
    Command.encode (Command.ReadDataShiftBytes
        ⟨ClockDirection.Falling, BitDirection.MsbFirst⟩ 1) =
      some (readShiftOpcode ⟨ClockDirection.Falling, BitDirection.MsbFirst⟩ ::
        toLeBytes16 (1 - 1)) ∧
    Command.encode (Command.ReadDataShiftBits
        ⟨ClockDirection.Falling, BitDirection.MsbFirst⟩ 1) =
      some [readShiftOpcode ⟨ClockDirection.Falling, BitDirection.MsbFirst⟩ ||| 0x02, 1 - 1] :=
  ⟨(c4_read_shift_write_clock_edge.1 ⟨ClockDirection.Falling, BitDirection.MsbFirst⟩ 1
      (by decide)).1,
   (c4_read_shift_write_clock_edge.2.1 ⟨ClockDirection.Falling, BitDirection.MsbFirst⟩ 1
      (by decide)).1⟩

/-- Claim C5: expected response lengths are the requested length for byte-shift
reads, 1 for bit-shift reads, 0 for write shifts, pin-set, loopback-set and
divisor-set, 1 for pin-read and wait-for-io, and a command list reports the sum
of its members. -/
theorem c5_expected_response_lengths :
    (∀ (o : DataShiftOptions) (len : Nat),
      Command.expected_response_length (Command.ReadDataShiftBytes o len) = len) ∧
    (∀ (o : DataShiftOptions) (len : Nat),
      Command.expected_response_length (Command.ReadDataShiftBits o len) = 1) ∧
    (∀ (o : DataShiftOptions) (bits len : Nat),
      Command.expected_response_length (Command.WriteDataShiftBits o bits len) = 0) ∧
    (∀ (o : DataShiftOptions) (bytes : List Nat),
      Command.expected_response_length (Command.WriteDataShiftBytes o bytes) = 0) ∧
    (∀ (r : PinRange) (v : PinValueArray) (d : PinDirectionArray),
      Command.expected_response_length (Command.SetBits r v d) = 0) ∧
    (∀ e : Bool, Command.expected_response_length (Command.SetLoopback e) = 0) ∧
    (∀ d : Nat, Command.expected_response_length (Command.SetClockDivisor d) = 0) ∧
    (∀ r : PinRange, Command.expected_response_length (Command.ReadBits r) = 1) ∧
    (∀ v : PinValue, Command.expected_response_length (Command.WaitForIo v) = 1) ∧
    (∀ l : CommandList, l.expected_response_length =
      (l.commands.map Command.expected_response_length).sum) := by
  refine ⟨fun _ _ => rfl, fun _ _ => rfl, fun _ _ _ => rfl, fun _ _ => rfl, fun _ _ _ => rfl,
    fun _ => rfl, fun _ => rfl, fun _ => rfl, fun _ => rfl, fun l => ?_⟩
  unfold CommandList.expected_response_length
  exact List.sum_eq_foldl.symm

/-- Claim C6 (counterexample): frequency 10.0 Hz has divisor floor 599999, which
does not fit in u16; builder finalization nevertheless succeeds, silently
saturating the divisor to 65535 and emitting [0x86, 0xFF, 0xFF] instead of
reporting an error. -/
theorem c6_counterexample :
    Int.floor ((6000000 : ℚ) / 10 - 1 / 2) = 599999 ∧
    ¬(599999 : Int) ≤ 65535 ∧
    (Builder.new.set_frequency 10).commit.commands = [Command.SetClockDivisor 65535] ∧
    (Builder.new.set_frequency 10).build = some [0x86, 0xFF, 0xFF] := by
  have hf : Int.floor ((6000000 : ℚ) / 10 - 1 / 2) = 599999 := by
    rw [Int.floor_eq_iff]
    norm_num
  have hd : frequencyDivisor 10 = 65535 := by
    unfold frequencyDivisor
    rw [hf]
    decide
  refine ⟨hf, by decide, ?_, ?_⟩
  · show [Command.SetClockDivisor (frequencyDivisor 10)] = _
    rw [hd]
  · show CommandList.encode ⟨[Command.SetClockDivisor (frequencyDivisor 10)]⟩ = _
    rw [hd]
    decide

/-- Claim C6 (amended): no finalization-time validation exists: set-frequency
finalization always succeeds, silently saturating the computed divisor into
0..65535; a zero shift length (bit or byte) panics at encoding time, modelled
as encoding failure, rather than being reported as an error; and a bit-shift
length above 8 is encoded without any detection. -/
theorem c6_no_finalization_errors :
    (∀ (b : Builder) (f : ℚ),
      (b.set_frequency f).commit.commands =
        b.commands ++ [Command.SetClockDivisor (frequencyDivisor f)] ∧
      frequencyDivisor f ≤ 65535) ∧
    (∀ (o : DataShiftOptions) (bits : Nat),
      Command.encode (Command.WriteDataShiftBits o bits 0) = none) ∧
    (∀ o : DataShiftOptions, Command.encode (Command.ReadDataShiftBits o 0) = none) ∧
    (∀ o : DataShiftOptions, Command.encode (Command.WriteDataShiftBytes o []) = none) ∧
    (∀ o : DataShiftOptions, Command.encode (Command.ReadDataShiftBytes o 0) = none) ∧
    (∀ (o : DataShiftOptions) (bits : Nat),
      Command.encode (Command.WriteDataShiftBits o bits 9) =
        some [writeShiftOpcode o ||| 0x02, 8, bits]) := by
  refine ⟨fun b f => ⟨rfl, ?_⟩, fun _ _ => rfl, fun _ => rfl, fun _ => rfl, fun _ => rfl,
    fun _ _ => rfl⟩
  unfold frequencyDivisor satU16
  split
  · exact Nat.zero_le _
  · split
    · exact Nat.le_refl _
    · omega

/-- Claim C7: set-frequency appends a SetClockDivisor command whose divisor is
the floor of 6000000 / frequency - 0.5 converted to u16, encoded as 0x86
followed by the divisor little-endian; frequency 5000.0 gives
[0x86, 0xAF, 0x04] and frequency 1000000.0 gives [0x86, 0x05, 0x00]. -/
theorem c7_set_frequency_divisor :
    (∀ (b : Builder) (f : ℚ), 0 < f →
      (b.set_frequency f).commit.commands =
        b.commands ++ [Command.SetClockDivisor
          (satU16 (Int.floor ((6000000 : ℚ) / f - 1 / 2)))] ∧
      Command.encode (Command.SetClockDivisor
          (satU16 (Int.floor ((6000000 : ℚ) / f - 1 / 2)))) =
        some [0x86, frequencyDivisor f % 256, frequencyDivisor f / 256 % 256]) ∧
    (Builder.new.set_frequency 5000).build = some [0x86, 0xAF, 0x04] ∧
    (Builder.new.set_frequency 1000000).build = some [0x86, 0x05, 0x00] := by
  refine ⟨fun b f _ => ⟨rfl, rfl⟩, ?_, ?_⟩
  · have hf : Int.floor ((6000000 : ℚ) / 5000 - 1 / 2) = 1199 := by
      rw [Int.floor_eq_iff]
      norm_num
    show CommandList.encode ⟨[Command.SetClockDivisor (frequencyDivisor 5000)]⟩ = _
    unfold frequencyDivisor
    rw [hf]
    decide
  · have hf : Int.floor ((6000000 : ℚ) / 1000000 - 1 / 2) = 5 := by
      rw [Int.floor_eq_iff]
      norm_num
    show CommandList.encode ⟨[Command.SetClockDivisor (frequencyDivisor 1000000)]⟩ = _
    unfold frequencyDivisor
    rw [hf]
    decide

/-- Witness for C7: the universal part applied at frequency 5000. -/
theorem c7_set_frequency_divisor_witness :
    (Builder.new.set_frequency 5000).commit.commands =
      Builder.new.commands ++ [Command.SetClockDivisor
        (satU16 (Int.floor ((6000000 : ℚ) / 5000 - 1 / 2)))] :=
  (c7_set_frequency_divisor.1 Builder.new 5000 (by norm_num)).1

/-- Claim C8: a SetBits command encodes as exactly the three bytes opcode,
value byte, direction byte, with opcode 0x80 for the low range and 0x82 for
the high range; the same bytes come out of the builder pipeline. -/
theorem c8_set_bits_three_bytes :
    ∀ (range : PinRange) (value : PinValueArray) (direction : PinDirectionArray),
      Command.encode (Command.SetBits range value direction) =
        some [(match range with | PinRange.Low => 0x80 | PinRange.High => 0x82),
              value.toByte, direction.toByte] ∧
      (Builder.new.set_pins range direction value).build =
        some [(match range with | PinRange.Low => 0x80 | PinRange.High => 0x82),
              value.toByte, direction.toByte] := by
  intro range value direction
  cases range <;> exact ⟨rfl, rfl⟩

/-- Claim C9: finalizing any sub-builder with the chaining operation and then
flattening equals the sub-builder combined build shortcut, for every
sub-builder state of all six sub-builder types. -/
theorem c9_then_build_matches_shortcut :
    (∀ sb : ReadBuilder, sb.andThen.build = sb.build) ∧
    (∀ sb : WriteBuilder, sb.andThen.build = sb.build) ∧
    (∀ sb : SetPinsBuilder, sb.andThen.build = sb.build) ∧
    (∀ sb : SetFrequencyBuilder, sb.andThen.build = sb.build) ∧
    (∀ sb : WaitForIoBuilder, sb.andThen.build = sb.build) ∧
    (∀ sb : ReadPinsBuilder, sb.andThen.build = sb.build) :=
  ⟨fun _ => rfl, fun _ => rfl, fun _ => rfl, fun _ => rfl, fun _ => rfl, fun _ => rfl⟩

/-- Claim C10: set_divisor never returns a builder for any divisor argument (the
source body is an unconditional panic), so no SetClockDivisor command can ever
be appended through it. -/
theorem c10_set_divisor_never_returns :
    ∀ (b : Builder) (d : Nat), Builder.set_divisor b d = none :=
  fun _ _ => rfl

end Mpsse
